import Mathlib

/-!
Verification development for the Ableton-Hub project-file structural analyzer
and its companion comparison/similarity layer.

The definitions below are a shallow embedding of the Python source:
* `src/tests/analyze_als_structure.py` (class `ALSAnalyzer`): the archive
  reader, structural extractor, backup discovery and backup comparator.
* `src/src/ui/widgets/recommendations_panel.py`: the caller of the
  similarity analyzer.

Python `xml.etree.ElementTree` elements are modelled by `Element` below:
a tag string, an attribute association list (attribute keys are unique in
XML, mirrored by lookup-first semantics), an optional text content and a
list of children.  `elem.iter()` is the preorder traversal `iterAll`,
`'x' in s` is `subOf`, and the Python truthiness idiom `a or b` on
optional strings is `pyOr`.  Floating-point BPM/length values are modelled
as rationals; Python's `float()` library parser is passed in as an explicit
parameter `pf` where extraction needs it.
-/

namespace ALS

/-- A parsed XML element: tag, attributes, optional text, children. -/
inductive Element : Type where
  | mk (tag : String) (attrs : List (String × String)) (text : Option String)
       (children : List Element)

/-- The element's tag string (`elem.tag`). -/
def Element.tag : Element → String
  | .mk t _ _ _ => t

/-- The element's attribute list (`elem.attrib`). -/
def Element.attrs : Element → List (String × String)
  | .mk _ a _ _ => a

/-- The element's text content (`elem.text`, `none` when absent). -/
def Element.text : Element → Option String
  | .mk _ _ x _ => x

/-- The element's direct children (`list(elem)`). -/
def Element.children : Element → List Element
  | .mk _ _ _ cs => cs

/-- Attribute lookup, `elem.get(key)`: the value of the first binding of
`key`, `none` when the attribute is missing. -/
def Element.get (e : Element) (key : String) : Option String :=
  (e.attrs.find? (fun p => p.1 == key)).map (fun p => p.2)

mutual

/-- Preorder traversal of an element and all its descendants, in document
order: Python's `elem.iter()`. -/
def iterAll : Element → List Element
  | .mk t a x cs => Element.mk t a x cs :: iterList cs

/-- Preorder traversal of a forest, in document order. -/
def iterList : List Element → List Element
  | [] => []
  | c :: cs => iterAll c ++ iterList cs

end

/-- Strict descendants of an element in document order: what
`elem.find('.//T')` searches. -/
def descendants (e : Element) : List Element :=
  iterList e.children

/-- `needle` occurs as a contiguous substring of `hay`: Python's
`needle in hay` on strings, on the character lists. -/
def subChars : List Char → List Char → Bool
  | needle, [] => needle.isEmpty
  | needle, c :: rest => needle.isPrefixOf (c :: rest) || subChars needle rest

/-- Substring test on strings: Python's `needle in hay`. -/
def subOf (needle hay : String) : Bool :=
  subChars needle.data hay.data

/-- The suffix of `cs` after its last `'}'` character; the whole list when
no `'}'` occurs.  This is Python's `s.split(sep)[-1]` for `sep := '}'`. -/
def lastAfterBrace (cs : List Char) : List Char :=
  cs.foldl (fun acc c => if c = '}' then [] else acc ++ [c]) []

/-- Namespace stripping applied throughout the analyzer:
`elem.tag.split(sep)[-1] if sep in elem.tag else elem.tag` with `sep := '}'`
(an ElementTree namespace-qualified tag reads `\x7buri\x7dLocalName`). -/
def stripNs (s : String) : String :=
  if s.data.contains '}' then String.mk (lastAfterBrace s.data) else s

/-- Python's `a or b` on optional strings: `a` when it is a truthy
(present and nonempty) string, else `b`. -/
def pyOr (a b : Option String) : Option String :=
  match a with
  | some s => if s = "" then b else some s
  | none => b

/-- Python truthiness of an optional string: present and nonempty. -/
def pyTruthyStr : Option String → Bool
  | none => false
  | some s => !(s == "")

/-- Python truthiness of an optional float (here rational): present and
nonzero. -/
def pyTruthyQ : Option ℚ → Bool
  | none => false
  | some q => !(q == 0)

/-- Python's `s.lower()`, characterwise. -/
def pyLower (s : String) : String :=
  String.mk (s.data.map Char.toLower)

/-- Python's `s.strip()`: drop whitespace from both ends. -/
def pyStrip (s : String) : String :=
  String.mk (((s.data.dropWhile Char.isWhitespace).reverse.dropWhile
    Char.isWhitespace).reverse)

/-- Python's `s.endswith(suffix)`. -/
def pyEndsWith (s suffix : String) : Bool :=
  List.isSuffixOf suffix.data s.data

/-- Per-track summary built by `ALSAnalyzer._extract_track_info`.
The Python record also carries always-empty `devices`/`clips`/`automation`
lists that the analyzer never populates; they are omitted here. -/
structure TrackInfo where
  type : String
  id : String
  attrs : List (String × String)
  name : Option String
  device_count : Nat

/-- Track-name search of `_extract_track_info`: the first element of the
track's subtree whose full tag contains `Name` (or `UserName`) and whose
resolved value is nonempty with nonempty strip; the stripped value is
kept.  A falsy candidate does not stop the search (the Python `break`
sits inside `if name_val and name_val.strip()`). -/
def track_name (track_elem : Element) : Option String :=
  (iterAll track_elem).findSome? fun ne =>
    if subOf "Name" ne.tag || subOf "UserName" ne.tag then
      match pyOr (ne.get "Value") ne.text with
      | some v => if v ≠ "" ∧ pyStrip v ≠ "" then some (pyStrip v) else none
      | none => none
    else none

/-- Device counting of `_extract_track_info`: for every subtree element
whose full tag contains `DeviceChain` or `Devices`, add its number of
direct children. -/
def track_device_count (track_elem : Element) : Nat :=
  ((iterAll track_elem).filter
      (fun c => subOf "DeviceChain" c.tag || subOf "Devices" c.tag)).foldl
    (fun n c => n + c.children.length) 0

/-- `ALSAnalyzer._extract_track_info`. -/
def extract_track_info (track_elem : Element) (track_type : String) : TrackInfo :=
  { type := track_type
    id := (track_elem.get "Id").getD ""
    attrs := track_elem.attrs
    name := track_name track_elem
    device_count := track_device_count track_elem }

/-- The `tracks` bucket of `ALSAnalyzer._extract_tracks`. -/
structure Tracks where
  audio_tracks : List TrackInfo
  midi_tracks : List TrackInfo
  return_tracks : List TrackInfo
  group_tracks : List TrackInfo
  master_track : Option TrackInfo
  total_count : Nat

/-- The empty `tracks` accumulator. -/
def initTracks : Tracks :=
  { audio_tracks := [], midi_tracks := [], return_tracks := [],
    group_tracks := [], master_track := none, total_count := 0 }

/-- One step of the `_extract_tracks` loop: dispatch on the
namespace-stripped tag.  `MasterTrack` overwrites `master_track` and does
not touch `total_count`. -/
def track_step (t : Tracks) (e : Element) : Tracks :=
  let tag := stripNs e.tag
  if tag == "AudioTrack" then
    { t with audio_tracks := t.audio_tracks ++ [extract_track_info e "audio"],
             total_count := t.total_count + 1 }
  else if tag == "MidiTrack" then
    { t with midi_tracks := t.midi_tracks ++ [extract_track_info e "midi"],
             total_count := t.total_count + 1 }
  else if tag == "ReturnTrack" then
    { t with return_tracks := t.return_tracks ++ [extract_track_info e "return"],
             total_count := t.total_count + 1 }
  else if tag == "GroupTrack" then
    { t with group_tracks := t.group_tracks ++ [extract_track_info e "group"],
             total_count := t.total_count + 1 }
  else if tag == "MasterTrack" then
    { t with master_track := some (extract_track_info e "master") }
  else t

/-- `ALSAnalyzer._extract_tracks`: one pass over `root.iter()`. -/
def extract_tracks (root : Element) : Tracks :=
  (iterAll root).foldl track_step initTracks

/-- The `devices` bucket of `ALSAnalyzer._extract_devices`.
`device_types` is a Python set serialized as a sorted list at the end. -/
structure Devices where
  device_types : List String
  device_names : List String
  device_count : Nat

/-- Set-style insertion used to model Python's `set.add`. -/
def setInsert (l : List String) (s : String) : List String :=
  if l.contains s then l else l ++ [s]

/-- Stable insertion into a `≤`-ascending list of strings. -/
def insertAsc (s : String) : List String → List String
  | [] => [s]
  | t :: ts => if s < t then s :: t :: ts else t :: insertAsc s ts

/-- Ascending string sort, modelling Python's `sorted` on the type list. -/
def sortStrings (l : List String) : List String :=
  l.foldr insertAsc []

/-- Device-name search of `_extract_devices`: the first truthy `Value`
attribute of a subtree element whose full tag contains `UserName`; a
`UserName` element with a falsy value does not stop the search. -/
def device_name (e : Element) : Option String :=
  (iterAll e).findSome? fun ne =>
    if subOf "UserName" ne.tag then
      match ne.get "Value" with
      | some v => if v = "" then none else some v
      | none => none
    else none

/-- One step of the `_extract_devices` loop: any element whose stripped
tag contains `Device` but is not exactly `DeviceChain` counts as a device;
its name is appended only when found. -/
def device_step (d : Devices) (e : Element) : Devices :=
  let tag := stripNs e.tag
  if subOf "Device" tag && !(tag == "DeviceChain") then
    let d := { d with device_types := setInsert d.device_types tag,
                      device_count := d.device_count + 1 }
    match device_name e with
    | some n => { d with device_names := d.device_names ++ [n] }
    | none => d
  else d

/-- `ALSAnalyzer._extract_devices`. -/
def extract_devices (root : Element) : Devices :=
  let d := (iterAll root).foldl device_step ⟨[], [], 0⟩
  { d with device_types := sortStrings d.device_types }

/-- The `plugins` bucket of `ALSAnalyzer._extract_plugins`. -/
structure Plugins where
  vst_plugins : List String
  au_plugins : List String
  plugin_paths : List String
  plugin_count : Nat

/-- Path collection inside one plugin element: every subtree element whose
full tag contains `Path` and carries a truthy `Value` contributes that
value, further partitioned by extension substrings of the lowercased
value. -/
def plugin_paths_step (p : Plugins) (pe : Element) : Plugins :=
  if subOf "Path" pe.tag then
    match pe.get "Value" with
    | some v =>
      if v = "" then p
      else
        let p := { p with plugin_paths := p.plugin_paths ++ [v] }
        if subOf ".vst" (pyLower v) || subOf ".dll" (pyLower v) then
          { p with vst_plugins := p.vst_plugins ++ [v] }
        else if subOf ".component" (pyLower v) || subOf ".au" (pyLower v) then
          { p with au_plugins := p.au_plugins ++ [v] }
        else p
    | none => p
  else p

/-- One step of the `_extract_plugins` loop: any element whose stripped
tag contains `PluginDevice`, `VstPlugin` or `AuPlugin` increments
`plugin_count`, then every `Path` descendant value is appended (no
`break`: one plugin may contribute several paths, or none). -/
def plugin_step (p : Plugins) (e : Element) : Plugins :=
  let tag := stripNs e.tag
  if subOf "PluginDevice" tag || subOf "VstPlugin" tag || subOf "AuPlugin" tag then
    (iterAll e).foldl plugin_paths_step { p with plugin_count := p.plugin_count + 1 }
  else p

/-- `ALSAnalyzer._extract_plugins`. -/
def extract_plugins (root : Element) : Plugins :=
  (iterAll root).foldl plugin_step ⟨[], [], [], 0⟩

/-- The `clips` bucket of `ALSAnalyzer._extract_clips`. -/
structure Clips where
  audio_clips : Nat
  midi_clips : Nat
  clip_names : List String
  clip_count : Nat

/-- Clip-name search of `_extract_clips`: first subtree element whose full
tag contains `Name` with a truthy, nonblank resolved value; the stripped
value is appended. -/
def clip_name (e : Element) : Option String :=
  (iterAll e).findSome? fun ne =>
    if subOf "Name" ne.tag then
      match pyOr (ne.get "Value") ne.text with
      | some v => if v ≠ "" ∧ pyStrip v ≠ "" then some (pyStrip v) else none
      | none => none
    else none

/-- One step of the `_extract_clips` loop over stripped tags. -/
def clip_step (c : Clips) (e : Element) : Clips :=
  let tag := stripNs e.tag
  let c :=
    if subOf "AudioClip" tag then
      { c with audio_clips := c.audio_clips + 1, clip_count := c.clip_count + 1 }
    else if subOf "MidiClip" tag then
      { c with midi_clips := c.midi_clips + 1, clip_count := c.clip_count + 1 }
    else c
  if subOf "Clip" tag then
    match clip_name e with
    | some n => { c with clip_names := c.clip_names ++ [n] }
    | none => c
  else c

/-- `ALSAnalyzer._extract_clips`. -/
def extract_clips (root : Element) : Clips :=
  (iterAll root).foldl clip_step ⟨0, 0, [], 0⟩

/-- The `project_info` bucket of `ALSAnalyzer._extract_project_info`.
The Python record initialises `name` and `arrangement_length` but never
assigns them, so they stay absent. -/
structure ProjectInfo where
  name : Option String
  annotation : Option String
  tempo : Option ℚ
  time_signature : Option String
  arrangement_length : Option ℚ
  scenes : List String
  scene_count : Nat

/-- Tempo loop of `_extract_project_info`: for every element whose full
tag contains `Tempo`, look up the first strict descendant tagged exactly
`Manual`; its `Value` attribute alone (text content is never consulted)
is parsed by `pf` (Python `float()`); a truthy, parseable value
overwrites the running tempo, so the last match wins. -/
def tempo_from_manual (pf : String → Option ℚ) (st : Option ℚ) :
    Option Element → Option ℚ
  | some manual =>
    match manual.get "Value" with
    | some v => if v = "" then st else match pf v with
      | some q => some q
      | none => st
    | none => st
  | none => st

/-- One tempo-loop step, dispatching on the `Manual` lookup. -/
def tempo_step (pf : String → Option ℚ) (st : Option ℚ) (e : Element) : Option ℚ :=
  if subOf "Tempo" e.tag then
    tempo_from_manual pf st ((descendants e).find? (fun de => de.tag == "Manual"))
  else st

/-- Time-signature loop of `_extract_project_info`: elements whose full
tag contains `TimeSignature` with both a `Numerator` and a `Denominator`
descendant set `"num/den"` from the `Value` attributes (default `4`). -/
def timesig_step (st : Option String) (e : Element) : Option String :=
  if subOf "TimeSignature" e.tag then
    match (descendants e).find? (fun de => de.tag == "Numerator"),
          (descendants e).find? (fun de => de.tag == "Denominator") with
    | some numer, some denom =>
      some (((numer.get "Value").getD "4") ++ "/" ++ ((denom.get "Value").getD "4"))
    | _, _ => st
  else st

/-- Annotation loop of `_extract_project_info`: elements whose full tag
contains `Annotation` resolve `Value`-attribute-or-text; a truthy result
overwrites the running annotation. -/
def annotation_step (st : Option String) (e : Element) : Option String :=
  if subOf "Annotation" e.tag then
    match pyOr (e.get "Value") e.text with
    | some v => if v = "" then st else some v
    | none => st
  else st

/-- Scene-name search of `_extract_project_info`: the resolved value of
the first subtree element whose full tag contains `Name` (the `break`
fires on the first such element, truthy or not). -/
def scene_name (e : Element) : Option String :=
  match (iterAll e).find? (fun ne => subOf "Name" ne.tag) with
  | some ne => pyOr (ne.get "Value") ne.text
  | none => none

/-- Scene loop of `_extract_project_info`: every element whose full tag
contains `Scene` increments `scene_count`; a truthy scene name is
appended to `scenes`. -/
def scene_step (st : List String × Nat) (e : Element) : List String × Nat :=
  if subOf "Scene" e.tag then
    let st := (st.1, st.2 + 1)
    match scene_name e with
    | some v => if v = "" then st else (st.1 ++ [v], st.2)
    | none => st
  else st

/-- `ALSAnalyzer._extract_project_info`: four independent passes over
`root.iter()`, parameterised by the float parser `pf`. -/
def extract_project_info (pf : String → Option ℚ) (root : Element) : ProjectInfo :=
  let sc := (iterAll root).foldl scene_step ([], 0)
  { name := none
    annotation := (iterAll root).foldl annotation_step none
    tempo := (iterAll root).foldl (tempo_step pf) none
    time_signature := (iterAll root).foldl timesig_step none
    arrangement_length := none
    scenes := sc.1
    scene_count := sc.2 }

/-- The `structure` bucket of `ALSAnalyzer._analyze_structure`.
`element_counts` is the tag-count dictionary as an association list. -/
structure StructureInfo where
  top_level_elements : List String
  element_counts : List (String × Nat)
  max_depth : Nat
  total_elements : Nat

/-- Dictionary increment: `d[tag] = d.get(tag, 0) + 1`. -/
def bump : List (String × Nat) → String → List (String × Nat)
  | [], k => [(k, 1)]
  | (k', v) :: rest, k =>
    if k' == k then (k', v + 1) :: rest else (k', v) :: bump rest k

mutual

/-- The recursive inner `count_elements` of `_analyze_structure`: record
the depth and stripped tag of the node, then recurse into each child at
depth + 1.  The Python original is a self-recursive closure whose
call-stack depth equals the nesting depth of the document. -/
def count_elements (st : StructureInfo) (e : Element) (depth : Nat) : StructureInfo :=
  match e with
  | .mk t _ _ cs =>
    let st := { st with max_depth := max st.max_depth depth,
                        total_elements := st.total_elements + 1,
                        element_counts := bump st.element_counts (stripNs t) }
    count_children st cs (depth + 1)

/-- Sequential recursion over the children list. -/
def count_children (st : StructureInfo) (l : List Element) (depth : Nat) : StructureInfo :=
  match l with
  | [] => st
  | c :: cs => count_children (count_elements st c depth) cs depth

end

/-- `ALSAnalyzer._analyze_structure`: record each top-level child's
stripped tag, then count its subtree starting at depth 1. -/
def analyze_structure (root : Element) : StructureInfo :=
  root.children.foldl
    (fun st child =>
      count_elements
        { st with top_level_elements := st.top_level_elements ++ [stripNs child.tag] }
        child 1)
    { top_level_elements := [], element_counts := [], max_depth := 0, total_elements := 0 }

/-- The failure modes of the archive-reading step of
`ALSAnalyzer.analyze_file`: the gzip layer raises when the bytes cannot
be decompressed (corrupt archive), the XML layer raises when the
decompressed payload does not parse (malformed document); each carries
its exception message. -/
inductive ArchiveError where
  | corruptArchive (msg : String)
  | malformedDocument (msg : String)
deriving DecidableEq

/-- The message carried by an archive-reading failure (`str(e)`). -/
def ArchiveError.msg : ArchiveError → String
  | .corruptArchive m => m
  | .malformedDocument m => m

/-- The reading step inside the `try` block of `analyze_file`:
decompress the raw bytes (`gzip.open(...).read()`), then parse the
payload (`ET.fromstring`).  `gunzip` and `parseXml` stand for those two
library calls and report their exception message on failure. -/
def read_archive (gunzip : List Nat → Except String (List Nat))
    (parseXml : List Nat → Except String Element)
    (data : List Nat) : Except ArchiveError Element :=
  match gunzip data with
  | .error m => .error (.corruptArchive m)
  | .ok payload =>
    match parseXml payload with
    | .error m => .error (.malformedDocument m)
    | .ok root => .ok root

/-- The `extractable_data` dictionary assembled by `analyze_file`.  The
remaining buckets of the Python dictionary (`samples`, `automation`,
`export_info`, `backup_info`, `timing_info`, `file_references`,
`preferences`) are analogous single-pass folds not referenced by the
claims below and are omitted. -/
structure ExtractableData where
  tracks : Tracks
  devices : Devices
  plugins : Plugins
  clips : Clips
  project_info : ProjectInfo

/-- `extractable_data` on one parsed root. -/
def extract_all (pf : String → Option ℚ) (root : Element) : ExtractableData :=
  { tracks := extract_tracks root
    devices := extract_devices root
    plugins := extract_plugins root
    clips := extract_clips root
    project_info := extract_project_info pf root }

/-- A file handed to `analyze_file`: its path, the `stat` data read
outside the `try` block, and its raw bytes. -/
structure InputFile where
  path : String
  size : Nat
  mtime : Nat
  bytes : List Nat

/-- The per-file record returned by `ALSAnalyzer.analyze_file`.  The
`structure` and `extractable_data` dictionaries stay at their empty
initial value (`none` here) when the `try` block raises; the exception
message lands in `error`. -/
structure AnalysisResult where
  file_path : String
  file_size : Nat
  modified_date : Nat
  structure_info : Option StructureInfo
  extractable_data : Option ExtractableData
  error : Option String

/-- `ALSAnalyzer.analyze_file`: a total function — every failure of the
reading step is caught and recorded in the `error` field of the returned
record, never propagated. -/
def analyze_file (gunzip : List Nat → Except String (List Nat))
    (parseXml : List Nat → Except String Element)
    (pf : String → Option ℚ) (file : InputFile) : AnalysisResult :=
  let base : AnalysisResult :=
    { file_path := file.path, file_size := file.size, modified_date := file.mtime,
      structure_info := none, extractable_data := none, error := none }
  match read_archive gunzip parseXml file.bytes with
  | .error e => { base with error := some (ArchiveError.msg e) }
  | .ok root =>
    { base with structure_info := some (analyze_structure root),
                extractable_data := some (extract_all pf root) }

/-- `main.get('extractable_data', \x7b\x7d).get('tracks', \x7b\x7d).get('total_count', 0)`. -/
def tracksOf (r : AnalysisResult) : Nat :=
  match r.extractable_data with
  | some d => d.tracks.total_count
  | none => 0

/-- The comparator's device-count getter, defaulting to 0. -/
def devicesOf (r : AnalysisResult) : Nat :=
  match r.extractable_data with
  | some d => d.devices.device_count
  | none => 0

/-- The comparator's plugin-count getter, defaulting to 0. -/
def pluginsOf (r : AnalysisResult) : Nat :=
  match r.extractable_data with
  | some d => d.plugins.plugin_count
  | none => 0

/-- The comparator's tempo getter (`.get('tempo')`, default `None`). -/
def tempoOf (r : AnalysisResult) : Option ℚ :=
  match r.extractable_data with
  | some d => d.project_info.tempo
  | none => none

/-- A count-changed entry of `_compare_files`. -/
structure CountChange where
  backup : String
  backup_value : Nat
  main_value : Nat
deriving DecidableEq

/-- A tempo-changed entry of `_compare_files` (`timing_changes`). -/
structure TimingChange where
  backup : String
  tempo : ℚ
  main_tempo : ℚ
deriving DecidableEq

/-- The comparison dictionary of `_compare_files`; `version_changes` is
initialised but never appended to. -/
structure Comparison where
  version_changes : List String
  track_changes : List CountChange
  device_changes : List CountChange
  plugin_changes : List CountChange
  timing_changes : List TimingChange

/-- The tempo comparison of `_compare_files` for one backup: Python
`if backup_tempo and main_tempo and abs(backup_tempo - main_tempo) > 0.1`
— both tempos must be truthy (present AND nonzero) and differ by more
than 0.1 BPM. -/
def timing_entry (main backup : AnalysisResult) : Option TimingChange :=
  match tempoOf backup, tempoOf main with
  | some bt, some mt =>
    if bt ≠ 0 ∧ mt ≠ 0 ∧ |bt - mt| > 1 / 10 then
      some { backup := backup.file_path, tempo := bt, main_tempo := mt }
    else none
  | _, _ => none

/-- `ALSAnalyzer._compare_files`: per-backup field-level deltas. -/
def compare_files (main : AnalysisResult) (backups : List AnalysisResult) : Comparison :=
  { version_changes := []
    track_changes := backups.filterMap fun b =>
      if tracksOf b ≠ tracksOf main then
        some { backup := b.file_path, backup_value := tracksOf b, main_value := tracksOf main }
      else none
    device_changes := backups.filterMap fun b =>
      if devicesOf b ≠ devicesOf main then
        some { backup := b.file_path, backup_value := devicesOf b, main_value := devicesOf main }
      else none
    plugin_changes := backups.filterMap fun b =>
      if pluginsOf b ≠ pluginsOf main then
        some { backup := b.file_path, backup_value := pluginsOf b, main_value := pluginsOf main }
      else none
    timing_changes := backups.filterMap (timing_entry main) }

/-- A filesystem entry as seen by `ALSAnalyzer.find_backup_files`: its
file name, its full path (the identity used by `not in`), its
modification time, and whether it sits directly in the project's
`Backup` folder. -/
structure FsFile where
  name : String
  path : String
  mtime : Int
  in_backup_dir : Bool
deriving DecidableEq

/-- Descending-by-mtime stable insertion. -/
def insertDesc (f : FsFile) : List FsFile → List FsFile
  | [] => [f]
  | g :: gs => if f.mtime > g.mtime then f :: g :: gs else g :: insertDesc f gs

/-- `sorted(backups, key=lambda p: p.stat().st_mtime, reverse=True)`:
sort newest-first by modification time. -/
def sortByMtimeDesc (l : List FsFile) : List FsFile :=
  l.foldr insertDesc []

/-- `ALSAnalyzer.find_backup_files` over a model filesystem listing:
first every `.als` file of the `Backup` folder, then every `.als` file
anywhere under the project directory whose name contains `backup`
(lowercased) or `[`, skipping ones already collected; the combined list
is returned sorted by modification time, newest first. -/
def find_backup_files (files : List FsFile) : List FsFile :=
  let fromBackupDir := files.filter fun f => f.in_backup_dir && pyEndsWith f.name ".als"
  let timestamped := files.filter fun f =>
    pyEndsWith f.name ".als" && (subOf "backup" (pyLower f.name) || subOf "[" f.name)
  let backups := timestamped.foldl
    (fun acc f => if acc.contains f then acc else acc ++ [f]) fromBackupDir
  sortByMtimeDesc backups

mutual

/-- Rewrite every tag of a document with `f`, leaving attributes, text
and shape unchanged (used to state namespace (in)variance). -/
def mapTags (f : String → String) : Element → Element
  | .mk t a x cs => .mk (f t) a x (mapTagsList f cs)

/-- `mapTags` over a forest. -/
def mapTagsList (f : String → String) : List Element → List Element
  | [] => []
  | c :: cs => mapTags f c :: mapTagsList f cs

end

/-- Qualify a plain tag with an ElementTree-style namespace:
`\x7bns\x7dLocalName`. -/
def qualifyTag (ns t : String) : String :=
  "\x7b" ++ ns ++ "\x7d" ++ t

mutual

/-- Erase every text content of a document, leaving tags, attributes and
shape unchanged (used to state that a computation never reads text). -/
def eraseTexts : Element → Element
  | .mk t a _ cs => .mk t a none (eraseTextsList cs)

/-- `eraseTexts` over a forest. -/
def eraseTextsList : List Element → List Element
  | [] => []
  | c :: cs => eraseTexts c :: eraseTextsList cs

end

/-- The textual-value resolution rule exactly as the specification states
it: the element's `Value` attribute if present, else its text content,
else absent. -/
def resolveClaim (e : Element) : Option String :=
  match e.get "Value" with
  | some v => some v
  | none => e.text

/-- The amended resolution rule: the element's `Value` attribute when it
is truthy (present and nonempty), else its text content, else absent. -/
def resolveRule (e : Element) : Option String :=
  match e.get "Value" with
  | some v => if v = "" then e.text else some v
  | none => e.text

/-- Modelled from the spec: the `SimilarityAnalyzer` service
(`src.services.similarity_analyzer`, imported by
`src/src/ui/widgets/recommendations_panel.py`) is not present under
`src/`; its feature record is modelled from spec sections 3 and 4.4 and
the caller's `_project_to_dict` fields: plugin-path set, device-type
set, optional tempo, track-kind counts, optional arrangement length. -/
structure FeatureRecord where
  plugins : Finset String
  devices : Finset String
  tempo : Option ℚ
  audio_tracks : Nat
  midi_tracks : Nat
  return_tracks : Nat
  group_tracks : Nat
  arrangement_length : Option ℚ

/-- Modelled from the spec: Jaccard-style overlap of two sets,
`card (A ∩ B) / card (A ∪ B)`, defined as 0 when both sets are empty. -/
def jaccard (A B : Finset String) : ℚ :=
  if (A ∪ B).card = 0 then 0
  else ((A ∩ B).card : ℚ) / ((A ∪ B).card : ℚ)

/-- Modelled from the spec: a decaying function of an absolute
difference, reaching 0 at the configurable threshold `thr`. -/
def decay (thr d : ℚ) : ℚ :=
  max 0 (1 - d / thr)

/-- Modelled from the spec: tempo proximity — a decaying function of the
absolute BPM difference, 0 when either tempo is absent. -/
def tempo_similarity (a b : Option ℚ) : ℚ :=
  match a, b with
  | some x, some y => decay 30 |x - y|
  | _, _ => 0

/-- Modelled from the spec: structural proximity of the track-kind
profiles — normalized difference of the audio/midi/return/group counts. -/
def track_profile_similarity (A B : FeatureRecord) : ℚ :=
  let dTot : ℚ :=
    |(A.audio_tracks : ℚ) - B.audio_tracks| + |(A.midi_tracks : ℚ) - B.midi_tracks| +
      |(A.return_tracks : ℚ) - B.return_tracks| + |(A.group_tracks : ℚ) - B.group_tracks|
  let tot : ℚ :=
    (A.audio_tracks + A.midi_tracks + A.return_tracks + A.group_tracks +
      B.audio_tracks + B.midi_tracks + B.return_tracks + B.group_tracks : ℕ)
  if tot = 0 then 1 else 1 - dTot / tot

/-- Modelled from the spec: arrangement-length proximity — a decaying
function of the absolute difference, 0 when either length is absent. -/
def length_similarity (a b : Option ℚ) : ℚ :=
  match a, b with
  | some x, some y => decay 64 |x - y|
  | _, _ => 0

/-- Modelled from the spec: the pairwise similarity score — a fixed
weighted combination of the per-dimension similarities (plugin overlap,
device overlap, tempo proximity, track-profile proximity,
arrangement-length proximity), each normalized to `[0,1]`. -/
def similarity (A B : FeatureRecord) : ℚ :=
  3 / 10 * jaccard A.plugins B.plugins + 2 / 10 * jaccard A.devices B.devices +
    2 / 10 * tempo_similarity A.tempo B.tempo +
    2 / 10 * track_profile_similarity A B +
    1 / 10 * length_similarity A.arrangement_length B.arrangement_length

theorem jaccard_comm (A B : Finset String) : jaccard A B = jaccard B A := by
  unfold jaccard
  rw [Finset.union_comm, Finset.inter_comm]

theorem tempo_similarity_comm (a b : Option ℚ) :
    tempo_similarity a b = tempo_similarity b a := by
  unfold tempo_similarity
  cases a <;> cases b <;> simp [abs_sub_comm]

theorem length_similarity_comm (a b : Option ℚ) :
    length_similarity a b = length_similarity b a := by
  unfold length_similarity
  cases a <;> cases b <;> simp [abs_sub_comm]

theorem track_profile_similarity_comm (A B : FeatureRecord) :
    track_profile_similarity A B = track_profile_similarity B A := by
  unfold track_profile_similarity
  have h1 : A.audio_tracks + A.midi_tracks + A.return_tracks + A.group_tracks +
      B.audio_tracks + B.midi_tracks + B.return_tracks + B.group_tracks =
      B.audio_tracks + B.midi_tracks + B.return_tracks + B.group_tracks +
      A.audio_tracks + A.midi_tracks + A.return_tracks + A.group_tracks := by omega
  rw [h1, abs_sub_comm ((A.audio_tracks : ℚ)), abs_sub_comm ((A.midi_tracks : ℚ)),
    abs_sub_comm ((A.return_tracks : ℚ)), abs_sub_comm ((A.group_tracks : ℚ))]

/-- Claim C2: for every pair of project feature records `A` and `B`, the
numeric similarity score is symmetric: `similarity A B = similarity B A`.
(The similarity analyzer itself is modelled from the spec, its source not
being under `src/`.) -/
theorem similarity_symmetric (A B : FeatureRecord) : similarity A B = similarity B A := by
  unfold similarity
  rw [jaccard_comm A.plugins B.plugins, jaccard_comm A.devices B.devices,
    tempo_similarity_comm A.tempo B.tempo, track_profile_similarity_comm A B,
    length_similarity_comm A.arrangement_length B.arrangement_length]

theorem mem_insertDesc {x f : FsFile} {l : List FsFile} :
    x ∈ insertDesc f l ↔ x = f ∨ x ∈ l := by
  induction l with
  | nil => simp [insertDesc]
  | cons g gs ih =>
    simp only [insertDesc]
    split
    · simp [List.mem_cons]
    · simp only [List.mem_cons, ih]
      tauto

theorem sorted_insertDesc {f : FsFile} {l : List FsFile}
    (h : l.Pairwise (fun a b => b.mtime ≤ a.mtime)) :
    (insertDesc f l).Pairwise (fun a b => b.mtime ≤ a.mtime) := by
  induction l with
  | nil => simp [insertDesc]
  | cons g gs ih =>
    rcases List.pairwise_cons.mp h with ⟨hg, hgs⟩
    simp only [insertDesc]
    split
    · rename_i hlt
      refine List.pairwise_cons.mpr ⟨?_, h⟩
      intro x hx
      rcases List.mem_cons.mp hx with rfl | hx
      · exact le_of_lt hlt
      · exact le_trans (hg x hx) (le_of_lt hlt)
    · rename_i hle
      refine List.pairwise_cons.mpr ⟨?_, ih hgs⟩
      intro x hx
      rcases mem_insertDesc.mp hx with rfl | hx
      · exact not_lt.mp hle
      · exact hg x hx

theorem sorted_sortByMtimeDesc (l : List FsFile) :
    (sortByMtimeDesc l).Pairwise (fun a b => b.mtime ≤ a.mtime) := by
  unfold sortByMtimeDesc
  induction l with
  | nil => simp
  | cons f fs ih => exact sorted_insertDesc ih

/-- Claim C8: the backup set returned by `find_backup_files` is ordered
by recency — along the returned sequence, modification times are
non-increasing (newest first). -/
theorem find_backup_files_sorted (files : List FsFile) :
    (find_backup_files files).Pairwise (fun a b => b.mtime ≤ a.mtime) := by
  unfold find_backup_files
  exact sorted_sortByMtimeDesc _

/-- A linear chain of `n + 1` nested elements: the adversarially deep
document family for the traversal of `_analyze_structure`. -/
def chain : Nat → Element
  | 0 => .mk "Node" [] none []
  | n + 1 => .mk "Node" [] none [chain n]

/-- A root whose single top-level child is a depth-`n` chain. -/
def chain_root (n : Nat) : Element :=
  .mk "Ableton" [] none [chain n]

theorem count_elements_chain (n : Nat) : ∀ st depth,
    (count_elements st (chain n) depth).max_depth = max st.max_depth (depth + n) ∧
    (count_elements st (chain n) depth).total_elements = st.total_elements + (n + 1) := by
  induction n with
  | zero =>
    intro st depth
    simp [chain, count_elements, count_children]
  | succ n ih =>
    intro st depth
    have hstep :
        count_elements st (chain (n + 1)) depth =
          count_elements
            { st with max_depth := max st.max_depth depth,
                      total_elements := st.total_elements + 1,
                      element_counts := bump st.element_counts (stripNs "Node") }
            (chain n) (depth + 1) := by
      conv_lhs => rw [chain]
      rw [count_elements]
      rw [count_children, count_children]
    rw [hstep]
    rcases ih { st with max_depth := max st.max_depth depth,
                        total_elements := st.total_elements + 1,
                        element_counts := bump st.element_counts (stripNs "Node") }
        (depth + 1) with ⟨h1, h2⟩
    constructor
    · rw [h1]; simp only []; omega
    · rw [h2]; simp only []; omega

/-- Claim C9 (code evaluated at the failing input family): on the
depth-`n` chain document, the traversal of `_analyze_structure` reaches
depth `n + 1`; the Python `count_elements` is a self-recursive function
whose call-stack depth equals this value, so its stack usage grows
linearly with document depth instead of being bounded. -/
theorem analyze_structure_chain_depth (n : Nat) :
    (analyze_structure (chain_root n)).max_depth = n + 1 ∧
    (analyze_structure (chain_root n)).total_elements = n + 1 := by
  have h := count_elements_chain n
      { top_level_elements := ["Node"], element_counts := [],
        max_depth := 0, total_elements := 0 } 1
  unfold analyze_structure chain_root
  simp only [Element.children, List.foldl]
  rw [show [] ++ [stripNs (chain n).tag] = ["Node"] from by cases n <;> rfl]
  constructor
  · rw [h.1]; show max 0 (1 + n) = n + 1; omega
  · rw [h.2]; show 0 + (n + 1) = n + 1; omega

theorem track_fold_invariant (l : List Element) : ∀ t : Tracks,
    t.total_count = t.audio_tracks.length + t.midi_tracks.length +
      t.return_tracks.length + t.group_tracks.length →
    (l.foldl track_step t).total_count =
      (l.foldl track_step t).audio_tracks.length +
        (l.foldl track_step t).midi_tracks.length +
        (l.foldl track_step t).return_tracks.length +
        (l.foldl track_step t).group_tracks.length := by
  induction l with
  | nil => intro t h; exact h
  | cons e es ih =>
    intro t h
    rw [List.foldl_cons]
    apply ih
    simp only [track_step]
    repeat' split
    all_goals try simp [List.length_append]
    all_goals omega

/-- Claim C10: for every analyzed document, the tracks bucket satisfies
`total_count = |audio_tracks| + |midi_tracks| + |return_tracks| +
|group_tracks|`; moreover a `MasterTrack` element never increments
`total_count` — the track-loop step on a `MasterTrack` element leaves
`total_count` unchanged and only overwrites the separate `master_track`
field. -/
theorem tracks_total_count_eq_sum :
    (∀ root : Element,
      (extract_tracks root).total_count =
        (extract_tracks root).audio_tracks.length +
          (extract_tracks root).midi_tracks.length +
          (extract_tracks root).return_tracks.length +
          (extract_tracks root).group_tracks.length) ∧
    (∀ (t : Tracks) (a : List (String × String)) (x : Option String) (cs : List Element),
      (track_step t (Element.mk "MasterTrack" a x cs)).total_count = t.total_count ∧
      (track_step t (Element.mk "MasterTrack" a x cs)).master_track =
        some (extract_track_info (Element.mk "MasterTrack" a x cs) "master")) := by
  constructor
  · intro root
    exact track_fold_invariant (iterAll root) initTracks rfl
  · intro t a x cs
    have hA : (stripNs "MasterTrack" == "AudioTrack") = false := by decide
    have hM : (stripNs "MasterTrack" == "MidiTrack") = false := by decide
    have hR : (stripNs "MasterTrack" == "ReturnTrack") = false := by decide
    have hG : (stripNs "MasterTrack" == "GroupTrack") = false := by decide
    have hS : (stripNs "MasterTrack" == "MasterTrack") = true := by decide
    simp [track_step, Element.tag, hA, hM, hR, hG, hS]

/-- A document holding one device element with no `UserName` descendant
and one plugin device carrying two `Path` values. -/
def c1_doc : Element :=
  .mk "Ableton" [] none
    [.mk "CompressorDevice" [] none [],
     .mk "PluginDevice" [] none
       [.mk "Path" [("Value", "a.vst")] none [],
        .mk "Path" [("Value", "b.vst")] none []]]

/-- Claim C1 fails on the code: on `c1_doc`, `_extract_devices` counts
two devices but collects no device name (neither device has a truthy
`UserName` value), and `_extract_plugins` counts one plugin but collects
two plugin paths. -/
theorem count_fields_not_list_lengths :
    (extract_devices c1_doc).device_count ≠ (extract_devices c1_doc).device_names.length ∧
    (extract_plugins c1_doc).plugin_count ≠ (extract_plugins c1_doc).plugin_paths.length := by
  decide

theorem device_fold_names_le_count (l : List Element) : ∀ d : Devices,
    d.device_names.length ≤ d.device_count →
    ((l.foldl device_step d).device_names.length ≤ (l.foldl device_step d).device_count) := by
  induction l with
  | nil => intro d h; exact h
  | cons e es ih =>
    intro d h
    rw [List.foldl_cons]
    apply ih
    simp only [device_step]
    split
    · cases device_name e <;> simp <;> omega
    · exact h

/-- Claim C1 amended: each matched device element appends at most one
name, so the devices bucket always satisfies
`|device_names| ≤ device_count`; the claimed equalities (device names,
plugin paths) do not hold in general. -/
theorem device_names_le_device_count (root : Element) :
    (extract_devices root).device_names.length ≤ (extract_devices root).device_count := by
  unfold extract_devices
  exact device_fold_names_le_count (iterAll root) ⟨[], [], 0⟩ (Nat.le_refl 0)

/-- A minimal analysis record whose `extractable_data` carries only the
given tempo, as the comparator reads it. -/
def mkResult (p : String) (t : Option ℚ) : AnalysisResult :=
  { file_path := p, file_size := 0, modified_date := 0, structure_info := none,
    extractable_data := some
      { tracks := initTracks, devices := ⟨[], [], 0⟩, plugins := ⟨[], [], [], 0⟩,
        clips := ⟨0, 0, [], 0⟩,
        project_info :=
          { name := none, annotation := none, tempo := t, time_signature := none,
            arrangement_length := none, scenes := [], scene_count := 0 } },
    error := none }

/-- Claim C3 fails on the code: a main record whose tempo is present but
equal to 0.0 is treated as having no tempo (Python truthiness), so a
backup at 125.0 BPM — present, and differing by far more than 0.1 —
emits no tempo-changed entry. -/
theorem tempo_zero_emits_no_entry :
    (compare_files (mkResult "m.als" (some 0)) [mkResult "b.als" (some 125)]).timing_changes = [] ∧
    (tempoOf (mkResult "m.als" (some 0))).isSome = true ∧
    (tempoOf (mkResult "b.als" (some 125))).isSome = true ∧
    |(125 : ℚ) - 0| > 1 / 10 := by
  refine ⟨?_, rfl, rfl, by norm_num⟩
  simp [compare_files, timing_entry, tempoOf, mkResult]

/-- Claim C3 amended: the comparator emits a tempo-changed entry for a
backup iff both tempos are truthy — present AND nonzero — and their
absolute difference exceeds 0.1 BPM (at most one entry per backup); in
particular main tempo 120.0 versus backup 120.05 emits no entry, and
backup 125.0 emits exactly one entry. -/
theorem tempo_changed_iff_truthy :
    (∀ main b : AnalysisResult,
      ((compare_files main [b]).timing_changes ≠ [] ↔
        ∃ bt mt, tempoOf b = some bt ∧ tempoOf main = some mt ∧
          bt ≠ 0 ∧ mt ≠ 0 ∧ |bt - mt| > 1 / 10) ∧
      (compare_files main [b]).timing_changes.length ≤ 1) ∧
    (compare_files (mkResult "m.als" (some 120))
      [mkResult "b.als" (some (2401 / 20))]).timing_changes = [] ∧
    (compare_files (mkResult "m.als" (some 120))
      [mkResult "b.als" (some 125)]).timing_changes =
      [{ backup := "b.als", tempo := 125, main_tempo := 120 }] := by
  have hone : ∀ main b : AnalysisResult,
      (compare_files main [b]).timing_changes = (timing_entry main b).toList := by
    intro main b
    rcases h : timing_entry main b with _ | c <;>
      simp [compare_files, List.filterMap_cons, h]
  refine ⟨?_, ?_, ?_⟩
  · intro main b
    constructor
    · rw [hone]
      unfold timing_entry
      rcases hb : tempoOf b with _ | bt <;> rcases hm : tempoOf main with _ | mt <;>
        simp only [Option.toList]
      · simp
      · simp
      · simp
      · by_cases hcond : bt ≠ 0 ∧ mt ≠ 0 ∧ |bt - mt| > 1 / 10
        · rw [if_pos hcond]
          constructor
          · intro _
            exact ⟨bt, mt, rfl, rfl, hcond.1, hcond.2.1, hcond.2.2⟩
          · intro _
            simp
        · rw [if_neg hcond]
          constructor
          · intro h
            exact absurd rfl h
          · rintro ⟨bt1, mt1, hbe, hme, h1, h2, h3⟩
            rcases Option.some.inj hbe with rfl
            rcases Option.some.inj hme with rfl
            exact absurd ⟨h1, h2, h3⟩ hcond
    · rw [hone]
      cases timing_entry main b <;> simp
  · rw [hone]
    unfold timing_entry
    simp only [tempoOf, mkResult]
    rw [if_neg]
    · rfl
    · push_neg
      intro _ _
      rw [show (2401 : ℚ) / 20 - 120 = 1 / 20 by norm_num, abs_le]
      constructor <;> norm_num
  · rw [hone]
    unfold timing_entry
    simp only [tempoOf, mkResult]
    rw [if_pos]
    · rfl
    · refine ⟨by norm_num, by norm_num, by norm_num⟩


theorem read_archive_gz_error (gunzip : List Nat → Except String (List Nat))
    (parseXml : List Nat → Except String Element) (bs : List Nat) (m : String)
    (h : gunzip bs = .error m) :
    read_archive gunzip parseXml bs = .error (.corruptArchive m) := by
  unfold read_archive
  rw [h]

theorem read_archive_px_error (gunzip : List Nat → Except String (List Nat))
    (parseXml : List Nat → Except String Element) (bs payload : List Nat) (m : String)
    (h1 : gunzip bs = .ok payload) (h2 : parseXml payload = .error m) :
    read_archive gunzip parseXml bs = .error (.malformedDocument m) := by
  unfold read_archive
  rw [h1]
  show (match parseXml payload with
    | Except.error m => Except.error (ArchiveError.malformedDocument m)
    | Except.ok root => Except.ok root) = _
  rw [h2]

theorem read_archive_ok (gunzip : List Nat → Except String (List Nat))
    (parseXml : List Nat → Except String Element) (bs payload : List Nat) (root : Element)
    (h1 : gunzip bs = .ok payload) (h2 : parseXml payload = .ok root) :
    read_archive gunzip parseXml bs = .ok root := by
  unfold read_archive
  rw [h1]
  show (match parseXml payload with
    | Except.error m => Except.error (ArchiveError.malformedDocument m)
    | Except.ok root => Except.ok root) = _
  rw [h2]

/-- Claim C7: the two failure modes of the archive-reading step are
distinguishable — reading fails with a corrupt-archive error exactly when
decompression fails, and with a malformed-document error exactly when
decompression succeeds but the payload does not parse. -/
theorem archive_error_modes (gunzip : List Nat → Except String (List Nat))
    (parseXml : List Nat → Except String Element) (bs : List Nat) :
    ((∃ m, read_archive gunzip parseXml bs = .error (.corruptArchive m)) ↔
      (∃ m, gunzip bs = .error m)) ∧
    ((∃ m, read_archive gunzip parseXml bs = .error (.malformedDocument m)) ↔
      (∃ payload m, gunzip bs = .ok payload ∧ parseXml payload = .error m)) := by
  rcases hgz : gunzip bs with m | payload
  · rw [read_archive_gz_error gunzip parseXml bs m hgz]
    simp [hgz]
  · rcases hpx : parseXml payload with m | root
    · rw [read_archive_px_error gunzip parseXml bs payload m hgz hpx]
      simp [hgz, hpx]
    · rw [read_archive_ok gunzip parseXml bs payload root hgz hpx]
      simp [hgz, hpx]

/-- Claim C4: whenever the reading step fails (the file cannot be
decompressed or parsed), single-file analysis still returns a record; the
exception message — nonempty for both library failure modes — is stored
in its `error` field and the exception never propagates (`analyze_file`
is total by construction). -/
theorem analyze_file_captures_errors
    (gunzip : List Nat → Except String (List Nat))
    (parseXml : List Nat → Except String Element)
    (pf : String → Option ℚ) (file : InputFile)
    (hg : ∀ b m, gunzip b = .error m → m ≠ "")
    (hp : ∀ p m, parseXml p = .error m → m ≠ "")
    (e : ArchiveError)
    (hread : read_archive gunzip parseXml file.bytes = .error e) :
    (analyze_file gunzip parseXml pf file).error = some (ArchiveError.msg e) ∧
      ArchiveError.msg e ≠ "" := by
  constructor
  · unfold analyze_file
    rw [hread]
  · rcases hgz : gunzip file.bytes with m | payload
    · have heq := read_archive_gz_error gunzip parseXml file.bytes m hgz
      rw [hread] at heq
      rcases Except.error.inj heq with rfl
      exact hg _ _ hgz
    · rcases hpx : parseXml payload with m | root
      · have heq := read_archive_px_error gunzip parseXml file.bytes payload m hgz hpx
        rw [hread] at heq
        rcases Except.error.inj heq with rfl
        exact hp _ _ hpx
      · have heq := read_archive_ok gunzip parseXml file.bytes payload root hgz hpx
        rw [hread] at heq
        exact Except.noConfusion heq

/-- A stand-in for the gzip library at concrete inputs: decompression
succeeds exactly on payloads starting with the gzip magic bytes
`1f 8b`, else raises `Not a gzipped file`. -/
def gz0 : List Nat → Except String (List Nat) := fun b =>
  if b.take 2 = [31, 139] then .ok (b.drop 2) else .error "Not a gzipped file"

/-- A stand-in for the XML library at concrete inputs: parsing fails on
the empty payload with the ElementTree message, else yields a bare root. -/
def px0 : List Nat → Except String Element := fun p =>
  if p = [] then .error "no element found: line 1, column 0"
  else .ok (.mk "Ableton" [] none [])

/-- A stand-in for Python `float()` restricted to digit strings, used to
instantiate the parser parameter at concrete inputs. -/
def pf0 (s : String) : Option ℚ :=
  if s ≠ "" ∧ s.data.all Char.isDigit then
    some ((s.data.foldl (fun n c => 10 * n + (c.toNat - 48)) 0 : ℕ) : ℚ)
  else none

/-- A one-byte file that is not a gzip stream. -/
def corruptFile : InputFile :=
  { path := "bad.als", size := 1, mtime := 0, bytes := [0] }

theorem analyze_file_captures_errors_witness :
    (analyze_file gz0 px0 pf0 corruptFile).error = some "Not a gzipped file" ∧
      ("Not a gzipped file" : String) ≠ "" := by
  have h := analyze_file_captures_errors gz0 px0 pf0 corruptFile
    (by
      intro b m hm
      unfold gz0 at hm
      split at hm
      · exact Except.noConfusion hm
      · simp only [Except.error.injEq] at hm
        rw [← hm]
        decide)
    (by
      intro p m hm
      unfold px0 at hm
      split at hm
      · simp only [Except.error.injEq] at hm
        rw [← hm]
        decide
      · exact Except.noConfusion hm)
    (ArchiveError.corruptArchive "Not a gzipped file") rfl
  exact h


theorem eraseTexts_tag (e : Element) : (eraseTexts e).tag = e.tag := by
  cases e
  rfl

theorem eraseTexts_get (e : Element) (k : String) :
    (eraseTexts e).get k = e.get k := by
  cases e
  rfl

theorem eraseTexts_children (e : Element) :
    (eraseTexts e).children = eraseTextsList e.children := by
  cases e
  rfl

mutual

theorem iterAll_erase : ∀ e : Element,
    iterAll (eraseTexts e) = (iterAll e).map eraseTexts
  | .mk t a x cs => by
    show iterAll (Element.mk t a none (eraseTextsList cs)) = _
    rw [iterAll, iterAll, List.map_cons]
    exact congrArg (List.cons _) (iterList_erase cs)

theorem iterList_erase : ∀ l : List Element,
    iterList (eraseTextsList l) = (iterList l).map eraseTexts
  | [] => rfl
  | c :: cs => by
    show iterList (eraseTexts c :: eraseTextsList cs) = _
    rw [iterList, iterList, List.map_append, iterAll_erase c, iterList_erase cs]

end

theorem descendants_erase (e : Element) :
    descendants (eraseTexts e) = (descendants e).map eraseTexts := by
  unfold descendants
  rw [eraseTexts_children, iterList_erase]

theorem find_manual_erase (e : Element) :
    (descendants (eraseTexts e)).find? (fun de => de.tag == "Manual") =
      ((descendants e).find? (fun de => de.tag == "Manual")).map eraseTexts := by
  rw [descendants_erase, List.find?_map]
  rw [show ((fun de => de.tag == "Manual") ∘ eraseTexts) =
      (fun de : Element => de.tag == "Manual") from
    funext fun de => by simp [Function.comp, eraseTexts_tag]]

theorem tempo_from_manual_erase (pf : String → Option ℚ) (st : Option ℚ)
    (mopt : Option Element) :
    tempo_from_manual pf st (mopt.map eraseTexts) = tempo_from_manual pf st mopt := by
  cases mopt with
  | none => rfl
  | some m =>
    simp only [Option.map_some', tempo_from_manual]
    rw [eraseTexts_get]

theorem tempo_step_erase (pf : String → Option ℚ) (st : Option ℚ) (e : Element) :
    tempo_step pf st (eraseTexts e) = tempo_step pf st e := by
  unfold tempo_step
  rw [eraseTexts_tag, find_manual_erase, tempo_from_manual_erase]

/-- Claim C5 amended: the textual-value resolution the analyzer applies
at the annotation, track-name, clip-name and scene-name sites — all four
compute `pyOr (e.get "Value") e.text` — is the truthy rule: the `Value`
attribute when present AND nonempty, else the text content, else absent
(not the claimed plain `Value`-if-present rule); tempo does not follow
the rule at all: it reads only the `Manual` element's `Value` attribute,
so erasing every text content of the document never changes the
extracted tempo. -/
theorem resolution_rule_amended :
    (∀ e : Element, pyOr (Element.get e "Value") (Element.text e) = resolveRule e) ∧
    (∀ (pf : String → Option ℚ) (root : Element),
      (extract_project_info pf (eraseTexts root)).tempo =
        (extract_project_info pf root).tempo) := by
  constructor
  · intro e
    unfold pyOr resolveRule
    cases h : Element.get e "Value" with
    | none => rfl
    | some v =>
      by_cases hv : v = "" <;> simp [hv]
  · intro pf root
    show (iterAll (eraseTexts root)).foldl (tempo_step pf) none =
      (iterAll root).foldl (tempo_step pf) none
    rw [iterAll_erase, List.foldl_map]
    rw [show (fun st e => tempo_step pf st (eraseTexts e)) = tempo_step pf from
      funext fun st => funext fun e => tempo_step_erase pf st e]

/-- The document refuting uniform application of the claimed rule: a
`Tempo/Manual` element whose value sits in its text content (no `Value`
attribute), and an `Annotation` element with an empty `Value` attribute
and nonempty text. -/
def c5_doc : Element :=
  .mk "Ableton" [] none
    [.mk "Tempo" [] none [.mk "Manual" [] (some "120") []],
     .mk "Annotation" [("Value", "")] (some "note") []]

/-- Claim C5 fails on the code: on `c5_doc` the claimed rule resolves the
`Manual` element to "120", which parses, yet the extracted tempo is
absent (the code reads only the `Value` attribute for tempo); and the
extracted annotation is "note" although the claimed rule resolves the
`Annotation` element to the present-but-empty `Value` attribute "". -/
theorem value_resolution_not_uniform :
    (extract_project_info pf0 c5_doc).tempo = none ∧
    resolveClaim (Element.mk "Manual" [] (some "120") []) = some "120" ∧
    pf0 "120" = some 120 ∧
    ProjectInfo.annotation (extract_project_info pf0 c5_doc) = some "note" ∧
    resolveClaim (Element.mk "Annotation" [("Value", "")] (some "note") []) = some "" := by
  refine ⟨by decide, by decide, ?_, by decide, by decide⟩
  show (if ("120" : String) ≠ "" ∧ "120".data.all Char.isDigit then
    some ((("120".data.foldl (fun n c => 10 * n + (c.toNat - 48)) 0 : ℕ)) : ℚ) else none) = some 120
  rw [if_pos (by decide)]
  rw [show ("120".data.foldl (fun n c => 10 * n + (c.toNat - 48)) 0 : ℕ) = 120 from by decide]
  norm_num


theorem mapTags_tag (f : String → String) (e : Element) :
    (mapTags f e).tag = f e.tag := by
  cases e
  rfl

mutual

theorem iterAll_mapTags (f : String → String) : ∀ e : Element,
    iterAll (mapTags f e) = (iterAll e).map (mapTags f)
  | .mk t a x cs => by
    show iterAll (Element.mk (f t) a x (mapTagsList f cs)) = _
    rw [iterAll, iterAll, List.map_cons]
    exact congrArg (List.cons _) (iterList_mapTags f cs)

theorem iterList_mapTags (f : String → String) : ∀ l : List Element,
    iterList (mapTagsList f l) = (iterList l).map (mapTags f)
  | [] => rfl
  | c :: cs => by
    show iterList (mapTags f c :: mapTagsList f cs) = _
    rw [iterList, iterList, List.map_append, iterAll_mapTags f c, iterList_mapTags f cs]

end

theorem foldl_step_no_brace (t : List Char) (h : ('}' : Char) ∉ t) : ∀ acc,
    t.foldl (fun acc c => if c = '}' then [] else acc ++ [c]) acc = acc ++ t := by
  induction t with
  | nil => intro acc; simp
  | cons c cs ih =>
    intro acc
    have hc : c ≠ '}' := fun hc => h (hc ▸ List.mem_cons_self c cs)
    rw [List.foldl_cons]
    rw [show (if c = '}' then ([] : List Char) else acc ++ [c]) = acc ++ [c] from
      if_neg hc]
    rw [ih (fun hm => h (List.mem_cons_of_mem c hm)) (acc ++ [c])]
    simp

theorem lastAfterBrace_append_brace (xs t : List Char) (h : ('}' : Char) ∉ t) :
    lastAfterBrace (xs ++ '}' :: t) = t := by
  unfold lastAfterBrace
  rw [List.foldl_append, List.foldl_cons]
  rw [show (if ('}' : Char) = '}' then ([] : List Char)
      else (List.foldl _ [] xs) ++ ['}']) = [] from if_pos rfl]
  rw [foldl_step_no_brace t h []]
  simp

theorem stripNs_no_brace (s : String) (h : ('}' : Char) ∉ s.data) : stripNs s = s := by
  unfold stripNs
  rw [if_neg]
  intro hc
  exact h (List.elem_iff.mp hc)

theorem data_qualify (ns t : String) :
    (qualifyTag ns t).data = ('{' :: ns.data) ++ '}' :: t.data := by
  show ((("\x7b" ++ ns) ++ "\x7d") ++ t).data = _
  rw [show ∀ a b : String, (a ++ b).data = a.data ++ b.data from fun a b => rfl]
  rw [show ∀ a b : String, (a ++ b).data = a.data ++ b.data from fun a b => rfl]
  rw [show ∀ a b : String, (a ++ b).data = a.data ++ b.data from fun a b => rfl]
  simp

theorem stripNs_qualify (ns t : String)
    (ht : ('}' : Char) ∉ t.data) : stripNs (qualifyTag ns t) = t := by
  unfold stripNs
  rw [if_pos]
  · rw [data_qualify, lastAfterBrace_append_brace ('{' :: ns.data) t.data ht]
  · rw [data_qualify]
    exact List.elem_iff.mpr (by simp)

/-- The observable track counts of a `tracks` bucket: the four per-kind
list lengths, the total, and master presence. -/
structure TrackCounts where
  audio : Nat
  midi : Nat
  ret : Nat
  grp : Nat
  total : Nat
  has_master : Bool
deriving DecidableEq

/-- Project a `tracks` bucket to its counts. -/
def trackCounts (t : Tracks) : TrackCounts :=
  ⟨t.audio_tracks.length, t.midi_tracks.length, t.return_tracks.length,
    t.group_tracks.length, t.total_count, t.master_track.isSome⟩

theorem track_step_counts (t1 t2 : Tracks) (e1 e2 : Element)
    (ht : trackCounts t1 = trackCounts t2)
    (htag : stripNs e1.tag = stripNs e2.tag) :
    trackCounts (track_step t1 e1) = trackCounts (track_step t2 e2) := by
  simp only [trackCounts, TrackCounts.mk.injEq] at ht
  obtain ⟨h1, h2, h3, h4, h5, h6⟩ := ht
  unfold track_step
  rw [htag]
  by_cases hA : (stripNs e2.tag == "AudioTrack") = true
  · simp [hA, trackCounts, h1, h2, h3, h4, h5, h6]
  · by_cases hM : (stripNs e2.tag == "MidiTrack") = true
    · simp [hA, hM, trackCounts, h1, h2, h3, h4, h5, h6]
    · by_cases hR : (stripNs e2.tag == "ReturnTrack") = true
      · simp [hA, hM, hR, trackCounts, h1, h2, h3, h4, h5, h6]
      · by_cases hG : (stripNs e2.tag == "GroupTrack") = true
        · simp [hA, hM, hR, hG, trackCounts, h1, h2, h3, h4, h5, h6]
        · by_cases hS : (stripNs e2.tag == "MasterTrack") = true
          · simp [hA, hM, hR, hG, hS, trackCounts, h1, h2, h3, h4, h5, h6]
          · simp [hA, hM, hR, hG, hS, trackCounts, h1, h2, h3, h4, h5, h6]

theorem track_fold_counts (f : String → String) (l : List Element) :
    ∀ t1 t2 : Tracks,
    (∀ x ∈ l, stripNs ((mapTags f x).tag) = stripNs x.tag) →
    trackCounts t1 = trackCounts t2 →
    trackCounts ((l.map (mapTags f)).foldl track_step t1) =
      trackCounts (l.foldl track_step t2) := by
  induction l with
  | nil => intro t1 t2 _ h; exact h
  | cons e es ih =>
    intro t1 t2 hall h
    rw [List.map_cons, List.foldl_cons, List.foldl_cons]
    exact ih _ _ (fun x hx => hall x (List.mem_cons_of_mem _ hx))
      (track_step_counts t1 t2 (mapTags f e) e h (hall e (List.mem_cons_self _ _)))

/-- Claim C6: tag matching is namespace-invariant — qualifying every tag
of a document with an ElementTree namespace (`\x7bns\x7dLocalName`), or
conversely stripping it, leaves all track counts of the extracted record
(the four per-kind list lengths, the total, master presence) unchanged,
provided the plain tags contain no `\x7d` separator. -/
theorem track_counts_namespace_invariant (doc : Element) (ns : String)
    (hdoc : ∀ x ∈ iterAll doc, ('}' : Char) ∉ x.tag.data) :
    trackCounts (extract_tracks (mapTags (qualifyTag ns) doc)) =
      trackCounts (extract_tracks doc) := by
  unfold extract_tracks
  rw [iterAll_mapTags]
  exact track_fold_counts (qualifyTag ns) (iterAll doc) initTracks initTracks
    (fun x hx => by
      rw [mapTags_tag, stripNs_qualify ns x.tag (hdoc x hx),
        stripNs_no_brace x.tag (hdoc x hx)])
    rfl

/-- A small plain-tag document with one track of each dispatched kind. -/
def c6_doc : Element :=
  .mk "Ableton" [] none
    [.mk "AudioTrack" [] none [], .mk "MidiTrack" [] none [],
     .mk "GroupTrack" [] none [.mk "ReturnTrack" [] none []],
     .mk "MasterTrack" [] none []]

theorem track_counts_namespace_invariant_witness :
    trackCounts (extract_tracks (mapTags (qualifyTag "urn:x") c6_doc)) =
      trackCounts (extract_tracks c6_doc) :=
  track_counts_namespace_invariant c6_doc "urn:x" (by decide)

end ALS
